import Mathlib

/-!
Verification of the aiagent command-line agent (Go).

The development shallowly embeds the parts of the repository that the
checked properties concern:

* `CmdNodes` — the interactive command-safety validator
  (cmd/aiagent/nodes/validation.go): the static blocklist
  `isDangerousCommand`, the safety-assessment parsing inside
  `validateWithLLM`, `suggestAlternativeCommand`, and the
  validate/execute/retry loop `Process`.
* `PkgNodes` — the classifier node (pkg/nodes/classifier.go), the other
  graph nodes of package pkg/nodes, the directory walk
  `collectDirectoryContents` of the content-collection node, and the
  orchestration loop `runLangGraph` of cmd main.

Strings are modelled as lists of characters.  Calls to the language
model, to the file system, and to process execution are external
collaborators and enter the embedding as oracle functions carried by an
environment record; everything the Go code computes itself (string
matching, parsing cascades, state updates, control flow) is translated
directly.
-/

namespace AgentStr

/-- Strings of the embedding: lists of characters. -/
abbrev Str := List Char

/-- Go strings.Contains: does `sub` occur as a contiguous substring of
`hay`?  The empty string occurs in every string. -/
def containsList (hay sub : Str) : Bool :=
  match hay with
  | [] => sub.isEmpty
  | _ :: t => sub.isPrefixOf hay || containsList t sub

/-- ASCII lower-casing of one character (model of Go strings.ToLower on
the ASCII strings the agent handles). -/
def lowerChar (c : Char) : Char :=
  if 'A' ≤ c ∧ c ≤ 'Z' then Char.ofNat (c.toNat + 32) else c

/-- Lower-case a whole string. -/
def lowerStr (s : Str) : Str := s.map lowerChar

/-- The white-space characters of the RE2 class backslash-s and of Go
unicode.IsSpace restricted to ASCII. -/
def isWS (c : Char) : Bool :=
  c = ' ' || c = '\t' || c = '\n' || c = '\x0d' || c = '\x0c' || c = '\x0b'

/-- Go strings.TrimSpace: drop white space from both ends. -/
def trimSpace (s : Str) : Str :=
  ((s.dropWhile isWS).reverse.dropWhile isWS).reverse

end AgentStr

namespace CmdNodes

open AgentStr

/-- The static blocklist of cmd/aiagent/nodes/validation.go,
`dangerousPatterns` in `isDangerousCommand`. -/
def dangerousPatterns : List Str :=
  ["rm -rf", "rm -r", "rmdir",
   "chmod", "chown",
   "dd",
   "mkfs",
   "fdisk", "mkdisk",
   "sudo", "su ",
   ":()\x7b:|:&\x7d;:",
   "shutdown", "reboot", "poweroff",
   ">", ">>", "2>",
   "mv /", "cp /",
   "apt", "yum", "pacman", "dnf", "zypper"].map String.toList

/-- isDangerousCommand: substring match of the command against the static
blocklist. -/
def isDangerousCommand (command : Str) : Bool :=
  dangerousPatterns.any (fun p => containsList command p)

/-- Case-insensitive literal matching: consume the pattern characters at
the head of the input, comparing lower-cased; return the rest. -/
def matchLitCI (pat l : Str) : Option Str :=
  match pat, l with
  | [], rest => some rest
  | _ :: _, [] => none
  | p :: ps, x :: xs => if lowerChar x = lowerChar p then matchLitCI ps xs else none

/-- One-or-more white space (RE2 backslash-s +), maximal munch; the
following pattern pieces (optional bracket, digit class) accept no white
space, so maximal munch agrees with the backtracking semantics. -/
def munchWS1 : Str → Option Str
  | [] => none
  | x :: xs => if isWS x then some (xs.dropWhile isWS) else none

/-- Optional opening bracket (RE2 backslash-bracket ?).  A digit never
equals the bracket, so consuming it when present agrees with
backtracking. -/
def skipOpt (c : Char) : Str → Str
  | [] => []
  | x :: xs => if x = c then xs else x :: xs

/-- Match of safeRegex, (?i)SAFE backslash-s + backslash-bracket ?
([1-3]) backslash-close-bracket ?, anchored at the head of the string.
The trailing optional bracket always succeeds and is dropped. -/
def matchSafeAt (l : Str) : Bool :=
  match matchLitCI "SAFE".toList l with
  | none => false
  | some r1 =>
    match munchWS1 r1 with
    | none => false
    | some r2 =>
      match skipOpt '[' r2 with
      | c :: _ => decide ('1' ≤ c ∧ c ≤ '3')
      | [] => false

/-- Match of cautionRegex, digits [4-6], anchored at the head. -/
def matchCautionAt (l : Str) : Bool :=
  match matchLitCI "CAUTION".toList l with
  | none => false
  | some r1 =>
    match munchWS1 r1 with
    | none => false
    | some r2 =>
      match skipOpt '[' r2 with
      | c :: _ => decide ('4' ≤ c ∧ c ≤ '6')
      | [] => false

/-- Match of dangerRegex, alternation [7-9] or 10, anchored at the
head. -/
def matchDangerAt (l : Str) : Bool :=
  match matchLitCI "DANGEROUS".toList l with
  | none => false
  | some r1 =>
    match munchWS1 r1 with
    | none => false
    | some r2 =>
      match skipOpt '[' r2 with
      | c :: rest =>
        decide ('7' ≤ c ∧ c ≤ '9') || (c = '1' && rest.headD ' ' = '0')
      | [] => false

/-- Unanchored regex search: try the anchored matcher at every suffix. -/
def anyPos (p : Str → Bool) : Str → Bool
  | [] => p []
  | x :: t => p (x :: t) || anyPos p t

/-- safeRegex.MatchString. -/
def safeMatch (s : Str) : Bool := anyPos matchSafeAt s

/-- cautionRegex.MatchString. -/
def cautionMatch (s : Str) : Bool := anyPos matchCautionAt s

/-- dangerRegex.MatchString. -/
def dangerMatch (s : Str) : Bool := anyPos matchDangerAt s

/-- The three verdicts of the rating regex cascade in validateWithLLM:
which of the branches at lines 107-113 fires. -/
inductive Verdict where
  | safe
  | caution
  | dangerous
  deriving DecidableEq

/-- The regex cascade of validateWithLLM: safeRegex first, then
cautionRegex, then dangerRegex; `none` when no rating pattern matches and
control falls through to the keyword check. -/
def ratingVerdict (assessment : Str) : Option Verdict :=
  if safeMatch assessment then some .safe
  else if cautionMatch assessment then some .caution
  else if dangerMatch assessment then some .dangerous
  else none

/-- The keyword fallback of validateWithLLM lines 116-119: the lower-cased
assessment contains "safe" and not "unsafe". -/
def keywordFallback (assessment : Str) : Bool :=
  containsList (lowerStr assessment) "safe".toList &&
  !containsList (lowerStr assessment) "unsafe".toList

/-- The boolean validateWithLLM returns for a successfully generated
assessment: true exactly when the command is safe to auto-execute. -/
def validateParse (assessment : Str) : Bool :=
  match ratingVerdict assessment with
  | some .safe => true
  | some .caution => false
  | some .dangerous => false
  | none => keywordFallback assessment

/-- Run-state of the cmd/aiagent pipeline, restricted to the fields the
validation node reads and writes (cmd/aiagent/nodes State). -/
structure State where
  input : Str
  command : Str
  nextNode : Str
  finalResult : Str
  rawOutput : Str
  workingDirectory : Str
  deriving DecidableEq

/-- NodeTypeFormatter of the cmd node set. -/
def NodeTypeFormatter : Str := "formatter".toList

/-- Outcome of exec.Command("bash", "-c", command).CombinedOutput(). -/
structure ExecFailure where
  goErr : Str
  detail : Str
  output : Str
  deriving DecidableEq

/-- Result of running a command: combined output on success, or the Go
error text, the detail line and the combined output on failure. -/
inductive ExecOutcome where
  | success (output : Str)
  | failure (f : ExecFailure)
  deriving DecidableEq

/-- External collaborators of the validation node: the safety LLM call of
validateWithLLM (command and working directory to assessment), the
correction LLM call of suggestAlternativeCommand (original input, working
directory, failed command, error type, error message to suggestion), and
bash command execution. -/
structure Env where
  validateLLM : Str → Str → Except Str Str
  suggestLLM : Str → Str → Str → Str → Str → Except Str Str
  exec : Str → ExecOutcome

/-- Observable interactions of one Process run, in order. -/
inductive Event where
  | dangerWarn (cmd : Str)
  | validateFailWarn (cmd : Str)
  | confirmPrompt (cmd : Str)
  | altPrompt (cmd alt : Str)
  | execReal (cmd : Str)
  | execSimulated (cmd : Str)
  deriving DecidableEq

/-- Result of a Process run: final state, remaining stdin lines, events. -/
abbrev ProcResult := State × List Str × List Event

/-- Prefix a list of events onto the trace of a run result. -/
def prependEvents (evs : List Event) (r : Option ProcResult) : Option ProcResult :=
  r.map (fun x => (x.1, x.2.1, evs ++ x.2.2))

/-- The simulated test commands whose validation is skipped. -/
def simulatedCommands : List Str :=
  ["ls -la", "df -h", "uname -a", "free -h"].map String.toList

/-- The simulated-command test of Process lines 218-227. -/
def simulatedCheck (cmd : Str) : Bool :=
  simulatedCommands.any (fun c => containsList cmd c)

/-- Canned output used when the command contains ls -la. -/
def simLsOutput : Str :=
  ("total 8748\ndrwxrwxr-x  3 mshogin mshogin    4096 Mar 17 01:32 .\ndrwxrwxr-x 21 mshogin mshogin    4096 Mar 17 00:57 ..\n-rwxrwxr-x  1 mshogin mshogin 8941512 Mar 17 01:32 aiagent\ndrwxrwxr-x  3 mshogin mshogin    4096 Mar 17 01:04 cmd\n-rw-rw-r--  1 mshogin mshogin      26 Mar 17 01:04 go.mod").toList

/-- Canned output used when the command contains df -h. -/
def simDfOutput : Str :=
  ("Filesystem      Size  Used Avail Use% Mounted on\n/dev/sda1        50G   25G   25G  50% /\n/dev/sdb1       100G   20G   80G  20% /home\n/dev/sdc1       200G  180G   20G  90% /data").toList

/-- Canned output used when the command contains uname -a. -/
def simUnameOutput : Str :=
  ("Linux hostname 5.15.0-76-generic #83-Ubuntu SMP Wed Feb 14 10:54:05 UTC 2024 x86_64 GNU/Linux").toList

/-- Canned output used when the command contains free -h. -/
def simFreeOutput : Str :=
  ("              total        used        free      shared  buff/cache   available\nMem:           16Gi       4.5Gi       8.0Gi       0.5Gi       3.0Gi      11.0Gi\nSwap:           4Gi       0.0Gi       4.0Gi").toList

/-- The cancellation message stored when the operator declines. -/
def cancelledMsg : Str := "Command execution cancelled by user.".toList

/-- The state updates of the decline branch at Process lines 259-264. -/
def cancelState (st : State) : State :=
  { st with rawOutput := cancelledMsg, finalResult := cancelledMsg,
            nextNode := NodeTypeFormatter }

/-- The dangerous-command warning printed before validation when the
static blocklist matches (Process lines 231-234). -/
def warnEvents (cmd : Str) : List Event :=
  if isDangerousCommand cmd then [Event.dangerWarn cmd] else []

/-- The operator answer after lower-casing and trimming, as compared at
Process line 259 and line 372. -/
def affirmative (resp : Str) : Bool :=
  trimSpace (lowerStr resp) = "y".toList || trimSpace (lowerStr resp) = "yes".toList

/-- The error-type classification of suggestAlternativeCommand lines
128-141. -/
def classifyErrorType (errorMessage : Str) : Str :=
  if containsList errorMessage "command not found".toList then "command_not_found".toList
  else if containsList errorMessage "permission denied".toList then "permission_denied".toList
  else if containsList errorMessage "No such file".toList
       || containsList errorMessage "not exist".toList then "file_not_found".toList
  else if containsList errorMessage "not a directory".toList then "not_a_directory".toList
  else if containsList errorMessage "invalid option".toList
       || containsList errorMessage "invalid argument".toList then "invalid_option".toList
  else if containsList errorMessage "syntax error".toList then "syntax_error".toList
  else "unknown".toList

/-- suggestAlternativeCommand: classify the error, ask the LLM, trim the
reply, and reject an empty or unchanged suggestion. -/
def suggestAlternativeCommand (env : Env) (failedCommand errorMessage originalInput workingDir : Str) :
    Except Str Str :=
  let errorType := classifyErrorType errorMessage
  match env.suggestLLM originalInput workingDir failedCommand errorType errorMessage with
  | .error e => .error ("failed to generate alternative command: ".toList ++ e)
  | .ok resp =>
    let response := trimSpace resp
    if response = [] ∨ response = failedCommand then
      .error "couldn\x27t generate a useful alternative command".toList
    else .ok response

/-- The error message assembled at Process lines 302-315 from a failed
execution. -/
def execErrorMessage (f : ExecFailure) : Str :=
  "Command execution failed: ".toList ++ f.goErr ++ "\n".toList ++ f.detail ++
  "\nOutput: ".toList ++ f.output

/-- The note appended to the raw output when an alternative is suggested
(Process line 342). -/
def altNote (alt : Str) : Str :=
  "\n\nAlternative command suggestion: ".toList ++ alt

/-- Outcome of the validation phase of Process (lines 218-273): either
fall through to execution, or return the cancelled state. -/
inductive ValidationOutcome where
  | proceed (stdin : List Str) (events : List Event)
  | cancelled (st : State) (stdin : List Str) (events : List Event)

/-- The validation phase of Process: skip for simulated or force-approved
commands; otherwise warn on a static match, ask the safety LLM, and
either auto-approve (SAFE and no static match), fall through on an LLM
error, or ask the operator and cancel unless the answer is y or yes. -/
def validationPhase (env : Env) (force : Bool) (st : State) (stdin : List Str) :
    ValidationOutcome :=
  let cmd := st.command
  if !simulatedCheck cmd && !force then
    match env.validateLLM cmd st.workingDirectory with
    | .error _ => .proceed stdin (warnEvents cmd ++ [Event.validateFailWarn cmd])
    | .ok assessment =>
      if validateParse assessment && !isDangerousCommand cmd then
        .proceed stdin (warnEvents cmd)
      else
        let answer := trimSpace (lowerStr (stdin.headD []))
        if answer ≠ "y".toList ∧ answer ≠ "yes".toList then
          .cancelled (cancelState st) stdin.tail (warnEvents cmd ++ [Event.confirmPrompt cmd])
        else
          .proceed stdin.tail (warnEvents cmd ++ [Event.confirmPrompt cmd])
  else
    .proceed stdin []

/-- The execution phase of Process (lines 275-393): canned output for the
four simulated fragments, otherwise run the command; on failure obtain a
suggestion, surface the failure when none is usable, and otherwise offer
the alternative, re-entering the continuation k on acceptance. -/
def execPhase (k : State → List Str → Option ProcResult) (env : Env)
    (st : State) (stdin : List Str) : Option ProcResult :=
  let cmd := st.command
  if containsList cmd "ls -la".toList then
    some ({ st with rawOutput := simLsOutput,
                    finalResult := "Command output:\n".toList ++ simLsOutput,
                    nextNode := NodeTypeFormatter }, stdin, [Event.execSimulated cmd])
  else if containsList cmd "df -h".toList then
    some ({ st with rawOutput := simDfOutput,
                    finalResult := "Command output:\n".toList ++ simDfOutput,
                    nextNode := NodeTypeFormatter }, stdin, [Event.execSimulated cmd])
  else if containsList cmd "uname -a".toList then
    some ({ st with rawOutput := simUnameOutput,
                    finalResult := "Command output:\n".toList ++ simUnameOutput,
                    nextNode := NodeTypeFormatter }, stdin, [Event.execSimulated cmd])
  else if containsList cmd "free -h".toList then
    some ({ st with rawOutput := simFreeOutput,
                    finalResult := "Command output:\n".toList ++ simFreeOutput,
                    nextNode := NodeTypeFormatter }, stdin, [Event.execSimulated cmd])
  else
    match env.exec cmd with
    | .success output =>
      some ({ st with rawOutput := output,
                      finalResult := "Command output:\n".toList ++ output,
                      nextNode := NodeTypeFormatter }, stdin, [Event.execReal cmd])
    | .failure f =>
      let errorMessage := execErrorMessage f
      match suggestAlternativeCommand env cmd errorMessage st.input st.workingDirectory with
      | .error _ =>
        some ({ st with rawOutput := errorMessage, finalResult := errorMessage,
                        nextNode := NodeTypeFormatter }, stdin, [Event.execReal cmd])
      | .ok alternativeCommand =>
        let st1 := { st with rawOutput := errorMessage ++ altNote alternativeCommand }
        let answer := trimSpace (lowerStr (stdin.headD []))
        if answer = "y".toList ∨ answer = "yes".toList then
          prependEvents [Event.execReal cmd, Event.altPrompt cmd alternativeCommand]
            (k { st1 with command := alternativeCommand } stdin.tail)
        else
          some ({ st1 with finalResult := st1.rawOutput, nextNode := NodeTypeFormatter },
                stdin.tail, [Event.execReal cmd, Event.altPrompt cmd alternativeCommand])

/-- ValidationNode.Process, fuel-indexed to account for the recursive
retry at line 378: validation phase, then execution phase with the
recursive Process as continuation. -/
def ProcessV (force : Bool) (env : Env) : Nat → State → List Str → Option ProcResult
  | 0, _, _ => none
  | fuel + 1, st, stdin =>
    match validationPhase env force st stdin with
    | .cancelled st' stdin' evs => some (st', stdin', evs)
    | .proceed stdin' evs =>
      prependEvents evs (execPhase (ProcessV force env fuel) env st stdin')

end CmdNodes

namespace PkgNodes

open AgentStr

/-- TaskStatus of pkg/nodes: one attempted task. -/
structure TaskStatus where
  nodeType : Str
  goal : Str
  isCompleted : Bool
  result : Str
  deriving DecidableEq

/-- The Go zero value TaskStatus with which the classifier clears the
current task. -/
def emptyTask : TaskStatus :=
  { nodeType := [], goal := [], isCompleted := false, result := [] }

/-- FileContent of pkg/nodes: one entry collected from the directory
walk. -/
structure FileContent where
  path : Str
  content : Str
  size : Int
  isDir : Bool
  deriving DecidableEq

/-- NodeTypeClassifier. -/
def NodeTypeClassifier : Str := "classifier".toList

/-- NodeTypeBash. -/
def NodeTypeBash : Str := "bash".toList

/-- NodeTypeValidation. -/
def NodeTypeValidation : Str := "validation".toList

/-- NodeTypeFormatter. -/
def NodeTypeFormatter : Str := "formatter".toList

/-- NodeTypeTerminal, the sole accepting state of the loop. -/
def NodeTypeTerminal : Str := "terminal".toList

/-- NodeTypeContentCollection. -/
def NodeTypeContentCollection : Str := "content_collection".toList

/-- NodeTypeAnalytics. -/
def NodeTypeAnalytics : Str := "analytics".toList

/-- NodeTypeDirectResponse. -/
def NodeTypeDirectResponse : Str := "direct_response".toList

/-- NodeTypeCodeAnalyzer. -/
def NodeTypeCodeAnalyzer : Str := "code_analyzer".toList

/-- Modelled from the spec: the code-fixer node type used by runLangGraph
whose defining constant file is not among the provided sources; the value
follows the naming scheme of the other node-type constants. -/
def NodeTypeCodeFixer : Str := "code_fixer".toList

/-- The shared run-state record of pkg/nodes. -/
structure State where
  input : Str
  command : Str
  nextNode : Str
  finalResult : Str
  rawOutput : Str
  verbose : Bool
  workingDirectory : Str
  currentTask : TaskStatus
  taskHistory : List TaskStatus
  globalGoal : Str
  isGoalMet : Bool
  directoryContents : List FileContent
  needsFileContent : Bool
  filePatterns : List Str
  fileCountLimit : Int
  fileSizeLimit : Int
  analyticsQuestion : Str
  deriving DecidableEq

/-- Result of the bash node running a command in a directory: combined
output, or combined output together with the Go error text. -/
inductive BashExec where
  | success (output : Str)
  | failure (output : Str) (errMsg : Str)

/-- File-system tree against which the content-collection walk runs.
Directories carry the size their FileInfo reports. -/
inductive FSNode where
  | file (name : Str) (size : Int) (content : Str)
  | dir (name : Str) (size : Int) (entries : List FSNode)

/-- Name of a node, as d.Name() reports it. -/
def FSNode.name : FSNode → Str
  | .file n _ _ => n
  | .dir n _ _ => n

/-- Directory test of a node. -/
def FSNode.isDir : FSNode → Bool
  | .file _ _ _ => false
  | .dir _ _ _ => true

/-- Size of a node, as info.Size() reports it. -/
def FSNode.size : FSNode → Int
  | .file _ s _ => s
  | .dir _ s _ => s

/-- Stored body of a node (what os.ReadFile would return). -/
def FSNode.body : FSNode → Str
  | .file _ _ c => c
  | .dir _ _ _ => []

/-- External collaborators of the pkg/nodes graph.  Each field folds one
LLM Complete call together with the json.Unmarshal of its reply (the
gateway and the decoder are both collaborators), or one file-system or
process effect; an error value carries the already formatted message of
the failing stage. -/
structure GEnv where
  verifyTaskCompletion : TaskStatus → Except Str Bool
  isGlobalGoalMet : Str → List TaskStatus → Except Str Bool
  classifyRequest : Str → Str → List TaskStatus → Except Str (Str × Str)
  bashCommand : Str → Str → Except Str Str
  bashExec : Str → Str → BashExec
  validateOutput : Str → Str → Str → Except Str (Bool × List Str × Str)
  formatOutput : Str → Str → Except Str (Str × Str)
  matchPattern : Str → Str → Bool
  fileTree : FSNode
  analyzeHistory : Str → List TaskStatus → Str → Except Str (List Str × List Str × Str)
  directResponse : Str → Str → Except Str Str
  determineContentNeeds : Str → Str → Except Str (Bool × List Str)
  findMatchingFiles : List Str → Except Str (List Str)
  readCheckedFiles : List Str → Str → Int → Except Str (List (Str × Str))
  analyzeContents : Str → List (Str × Str) → Except Str Str
  fixerAnalyzeCodebase : Str → Str → List TaskStatus → Except Str Str
  checkBuildability : Str → Except Str Unit
  fixBuildIssues : Str → Except Str Unit
  runTestSuite : Str → Except Str Unit
  fixTestIssues : Str → Except Str Unit
  fixerNextGoal : Str → Str → List TaskStatus → Except Str Str
  buildNewVersion : Str → Except Str Unit
  startNewVersion : Str → Except Str Unit

/-- Return shape of a node handler in the loop: the error the handler
returned, the result string it returned, and the state it left behind. -/
abbrev NodeRet := Option Str × Str × State

namespace ClassifierNode

/-- The classify branch of ClassifierNode.Process (lines 69-82): ask for
the next node and goal, set the pointer and install the new current
task. -/
def classifyStep (env : GEnv) (st : State) : NodeRet :=
  match env.classifyRequest st.input st.globalGoal st.taskHistory with
  | .error e => (some ("failed to classify request: ".toList ++ e), [], st)
  | .ok (nextNode, goal) =>
    (none, goal,
     { st with nextNode := nextNode,
               currentTask :=
                 { nodeType := nextNode, goal := goal, isCompleted := false, result := [] } })

/-- ClassifierNode.Process: verify a present current task, append it to
the history when completed, stop at terminal when the global goal is met,
and otherwise classify the next step. -/
def Process (env : GEnv) (st : State) : NodeRet :=
  if st.currentTask.nodeType ≠ [] then
    match env.verifyTaskCompletion st.currentTask with
    | .error e => (some ("failed to verify task completion: ".toList ++ e), [], st)
    | .ok completed =>
      let st1 := { st with currentTask := { st.currentTask with isCompleted := completed } }
      if completed then
        let st2 := { st1 with taskHistory := st1.taskHistory ++ [st1.currentTask] }
        match env.isGlobalGoalMet st2.globalGoal st2.taskHistory with
        | .error e => (some ("failed to check global goal: ".toList ++ e), [], st2)
        | .ok goalMet =>
          if goalMet then
            (none, [], { st2 with nextNode := NodeTypeTerminal, currentTask := emptyTask })
          else classifyStep env st2
      else classifyStep env st1
  else classifyStep env st

end ClassifierNode

/-- Go strings.Fields: split around runs of white space. -/
def fieldsGo : Str → Str → List Str
  | [], cur => if cur = [] then [] else [cur.reverse]
  | c :: rest, cur =>
    if isWS c then
      (if cur = [] then fieldsGo rest [] else cur.reverse :: fieldsGo rest [])
    else fieldsGo rest (c :: cur)

/-- Go strings.Fields entry point. -/
def fields (s : Str) : List Str := fieldsGo s []

/-- The blocklist of pkg/nodes/bash.go validateCommand. -/
def bashDangerousPatterns : List Str :=
  ["rm -rf", "rm -r", "sudo", ">", ">>", "|", "&", ";", "`",
   "$(", "$\x7b",
   "wget", "curl", "nc", "ncat", "telnet", "ftp", "ssh", "scp",
   "chmod", "chown", "chgrp", "mkfs", "dd", "mv", "cp"].map String.toList

/-- The allowlist of pkg/nodes/bash.go validateCommand. -/
def allowedCommands : List Str :=
  ["ls", "pwd", "echo", "cat", "head", "tail", "grep", "find", "df", "du",
   "free", "ps", "top", "uname", "whoami", "id", "date", "uptime",
   "hostname"].map String.toList

/-- validateCommand of pkg/nodes/bash.go: reject commands containing a
dangerous pattern, empty commands, and base commands outside the
allowlist. -/
def validateCommand (cmd : Str) : Except Str Unit :=
  let cmdLower := lowerStr cmd
  match bashDangerousPatterns.find? (fun p => containsList cmdLower p) with
  | some p => .error ("command contains dangerous pattern: ".toList ++ p)
  | none =>
    match fields cmd with
    | [] => .error "empty command".toList
    | baseCmd :: _ =>
      if allowedCommands.any (fun a => a = baseCmd) then .ok ()
      else .error ("command not in allowed list: ".toList ++ baseCmd)

namespace BashNode

/-- BashNode.Process of pkg/nodes/bash.go: obtain and parse a command,
validate it, execute it in the working directory, and on success store
the trimmed output in the current task and route to the classifier. -/
def Process (env : GEnv) (st : State) : NodeRet :=
  match env.bashCommand st.currentTask.goal st.input with
  | .error e => (some e, [], st)
  | .ok command =>
    match validateCommand command with
    | .error e => (some ("command validation failed: ".toList ++ e), [], st)
    | .ok _ =>
      match env.bashExec st.workingDirectory command with
      | .failure output errMsg =>
        (some ("command execution failed: ".toList ++ errMsg), output, st)
      | .success output =>
        (none, trimSpace output,
         { st with currentTask := { st.currentTask with result := trimSpace output },
                   nextNode := NodeTypeClassifier })

end BashNode

namespace ValidationNode

/-- ValidationNode.Process of pkg/nodes: validate the command output
against the task goal, format the verdict, and route to terminal. -/
def Process (env : GEnv) (st : State) : NodeRet :=
  match env.validateOutput st.command st.rawOutput st.currentTask.goal with
  | .error e => (some e, [], st)
  | .ok (isValid, issues, explanation) =>
    let output :=
      if isValid then "✅ Validation passed: ".toList ++ explanation ++ "\n".toList
      else
        issues.foldl (fun acc i => acc ++ "- ".toList ++ i ++ "\n".toList)
          ("❌ Validation failed: ".toList ++ explanation ++ "\n\nIssues:\n".toList)
    (none, [], { st with finalResult := output, nextNode := NodeTypeTerminal })

end ValidationNode

namespace FormatterNode

/-- FormatterNode.Process of pkg/nodes: ask for a formatted output, parse
it, discard it, and route to terminal. -/
def Process (env : GEnv) (st : State) : NodeRet :=
  match env.formatOutput st.rawOutput st.currentTask.goal with
  | .error e => (some e, [], st)
  | .ok _ => (none, [], { st with nextNode := NodeTypeTerminal })

end FormatterNode

namespace DirectResponseNode

/-- DirectResponseNode.Process of pkg/nodes: ask for a direct answer and
route it to terminal as the final result. -/
def Process (env : GEnv) (st : State) : NodeRet :=
  match env.directResponse st.currentTask.goal st.input with
  | .error e => (some e, [], st)
  | .ok response =>
    (none, [], { st with finalResult := response, nextNode := NodeTypeTerminal })

end DirectResponseNode

namespace AnalyticsNode

/-- AnalyticsNode.Process: ask for insights over the task history and
format them into the raw output and final result. -/
def Process (env : GEnv) (st : State) : NodeRet :=
  match env.analyzeHistory st.globalGoal st.taskHistory st.currentTask.result with
  | .error e => (some e, [], st)
  | .ok (insights, recommendations, explanation) =>
    let output :=
      (recommendations.foldl (fun acc i => acc ++ "- ".toList ++ i ++ "\n".toList)
        ((insights.foldl (fun acc i => acc ++ "- ".toList ++ i ++ "\n".toList)
          "Insights:\n".toList) ++ "\nRecommendations:\n".toList)) ++
      "\n".toList ++ explanation
    (none, [],
     { st with rawOutput := output, finalResult := output, nextNode := NodeTypeTerminal })

end AnalyticsNode

namespace CodeAnalyzerNode

/-- CodeAnalyzerNode.Process of pkg/nodes: determine content needs,
gather and read the matching files under the size limit, analyze them,
and store the analysis as final result routed to terminal; when no
content is needed, return leaving the state untouched. -/
def Process (env : GEnv) (st : State) : NodeRet :=
  match env.determineContentNeeds st.currentTask.goal st.workingDirectory with
  | .error e => (some ("failed to determine content needs: ".toList ++ e), [], st)
  | .ok (needsContent, patterns) =>
    if !needsContent then (none, [], st)
    else
      match env.findMatchingFiles patterns with
      | .error e => (some ("failed to find matching files: ".toList ++ e), [], st)
      | .ok files =>
        match env.readCheckedFiles files st.workingDirectory st.fileSizeLimit with
        | .error e => (some e, [], st)
        | .ok contents =>
          match env.analyzeContents st.currentTask.goal contents with
          | .error e => (some ("failed to analyze contents: ".toList ++ e), [], st)
          | .ok analysis =>
            (none, [], { st with finalResult := analysis, nextNode := NodeTypeTerminal })

end CodeAnalyzerNode

namespace CodeFixerNode

/-- The check-and-repair-build block of CodeFixerNode.Process; an ok
value of Process is the state at the os.Exit(0) call. -/
def buildStep (env : GEnv) (wd : Str) : Except Str Unit :=
  match env.checkBuildability wd with
  | .ok _ => .ok ()
  | .error buildErr =>
    match env.fixBuildIssues buildErr with
    | .error e => .error ("failed to fix build issues: ".toList ++ e)
    | .ok _ => .ok ()

/-- The run-and-repair-tests block of CodeFixerNode.Process. -/
def testStep (env : GEnv) (wd : Str) : Except Str Unit :=
  match env.runTestSuite wd with
  | .ok _ => .ok ()
  | .error testErr =>
    match env.fixTestIssues testErr with
    | .error e => .error ("failed to fix test issues: ".toList ++ e)
    | .ok _ => .ok ()

/-- CodeFixerNode.Process of pkg/nodes/code_fixer.go, continued: analyze,
repair build and tests, update the global goal, rebuild, start the new
version and exit. -/
def Process (env : GEnv) (st : State) : Except Str State :=
  match env.fixerAnalyzeCodebase st.workingDirectory st.globalGoal st.taskHistory with
  | .error e => .error ("failed to analyze codebase: ".toList ++ e)
  | .ok analysis =>
    match buildStep env st.workingDirectory with
    | .error e => .error e
    | .ok _ =>
      match testStep env st.workingDirectory with
      | .error e => .error e
      | .ok _ =>
        match env.fixerNextGoal analysis st.globalGoal st.taskHistory with
        | .error e => .error ("failed to update goal: ".toList ++ e)
        | .ok nextGoal =>
          let st1 := { st with globalGoal := nextGoal }
          match env.buildNewVersion st1.workingDirectory with
          | .error e => .error ("failed to build new version: ".toList ++ e)
          | .ok _ =>
            match env.startNewVersion st1.workingDirectory with
            | .error e => .error ("failed to start new version: ".toList ++ e)
            | .ok _ => .ok st1

end CodeFixerNode

/-- Accumulator of the walk closure of collectDirectoryContents: the
collected entries and the counter. -/
structure WalkAcc where
  contents : List FileContent
  count : Nat

/-- Hidden-name test of the walk closure: the name starts with a dot and
is not the bare dot naming the current-directory root. -/
def isHiddenName (nm : Str) : Bool :=
  !(nm = ".".toList) && ".".toList.isPrefixOf nm

/-- The extension list of isTextFile. -/
def isTextFileExtensions : List Str :=
  [".txt", ".md", ".go", ".py", ".js", ".html", ".css", ".json", ".yaml", ".yml",
   ".xml", ".sh", ".c", ".cpp", ".h", ".hpp", ".java", ".ts", ".tsx", ".jsx",
   ".rb", ".rs", ".php", ".conf", ".cfg", ".ini", ".properties", ".toml", ".csv"].map String.toList

/-- isTextFile: extension-based text-file heuristic. -/
def isTextFile (filename : Str) : Bool :=
  let lowercaseName := lowerStr filename
  isTextFileExtensions.any (fun ext => ext.isSuffixOf lowercaseName)

mutual
/-- One call of the WalkDir closure of collectDirectoryContents on entry
`n` at `path`, followed by the walk of its children when it is a
directory that is neither pruned nor skipped.  The boolean mirrors
filepath.SkipDir returned on a non-directory: skip the remaining entries
of the containing directory.  The tree is the clean view of the file
system: d.Info() and os.ReadFile never fail in it (the walk skips or
annotates such entries, which no checked property concerns). -/
def walkNode (matchFn : Str → Str → Bool) (patterns : List Str) (readContents : Bool)
    (path : Str) (n : FSNode) (acc : WalkAcc) : WalkAcc × Bool :=
  if acc.count ≥ 500 then (acc, !n.isDir)
  else if isHiddenName n.name then (acc, false)
  else if !n.isDir && !patterns.isEmpty && !(patterns.any (fun p => matchFn p n.name)) then
    (acc, false)
  else
    let content :=
      if readContents && !n.isDir && n.size ≤ 100 * 1024 then
        (if isTextFile n.name then n.body else "[binary file]".toList)
      else []
    let fc : FileContent := { path := path, content := content, size := n.size, isDir := n.isDir }
    let acc1 : WalkAcc := { contents := acc.contents ++ [fc], count := acc.count + 1 }
    match n with
    | .file _ _ _ => (acc1, false)
    | .dir _ _ entries =>
      (walkChildren matchFn patterns readContents path entries acc1, false)

/-- Walk of the entries of one directory, in order, honouring the
skip-remaining-siblings signal. -/
def walkChildren (matchFn : Str → Str → Bool) (patterns : List Str) (readContents : Bool)
    (parentPath : Str) (l : List FSNode) (acc : WalkAcc) : WalkAcc :=
  match l with
  | [] => acc
  | c :: rest =>
    let res := walkNode matchFn patterns readContents (parentPath ++ "/".toList ++ c.name) c acc
    if res.2 then res.1
    else walkChildren matchFn patterns readContents parentPath rest res.1
end

/-- collectDirectoryContents: walk the tree rooted at rootDir and return
the collected entries.  matchFn stands for filepath.Match on a valid
pattern (an invalid pattern, which Go skips, is one on which matchFn is
false). -/
def collectDirectoryContents (matchFn : Str → Str → Bool) (rootDir : Str) (root : FSNode)
    (patterns : List Str) (readContents : Bool) : List FileContent :=
  (walkNode matchFn patterns readContents rootDir root { contents := [], count := 0 }).1.contents

mutual
/-- Specification-side description of which entries the walk may list:
the paths of the nodes reachable without entering a hidden name (the
bare dot of the current-directory root is not hidden).  This definition
follows the words of the spec and is compared against the walk. -/
def specVisiblePaths (path : Str) (n : FSNode) : List Str :=
  match n with
  | .file name _ _ => if isHiddenName name then [] else [path]
  | .dir name _ entries =>
    if isHiddenName name then [] else path :: specVisiblePathsList path entries

/-- Specification-side visible paths of a directory body. -/
def specVisiblePathsList (parentPath : Str) (l : List FSNode) : List Str :=
  match l with
  | [] => []
  | c :: rest =>
    specVisiblePaths (parentPath ++ "/".toList ++ c.name) c ++
    specVisiblePathsList parentPath rest
end

namespace ContentCollectionNode

/-- ContentCollectionNode.Process: default the limits, collect the
directory contents and route to analytics. -/
def Process (env : GEnv) (st : State) : NodeRet :=
  let st1 := { st with
    fileCountLimit := if st.fileCountLimit ≤ 0 then 50 else st.fileCountLimit,
    fileSizeLimit := if st.fileSizeLimit ≤ 0 then 100 * 1024 else st.fileSizeLimit }
  let dirContents := collectDirectoryContents env.matchPattern st1.workingDirectory
      env.fileTree st1.filePatterns st1.needsFileContent
  (none, [], { st1 with directoryContents := dirContents, nextNode := NodeTypeAnalytics })

end ContentCollectionNode

/-- Outcome of runLangGraph: the final result at terminal, an error
return, or the process exit inside the code fixer. -/
inductive RunOutcome where
  | finished (finalResult : Str) (st : State)
  | failed (msg : Str) (st : State)
  | exited (st : State)
  deriving DecidableEq

/-- The state a run outcome carries (the caller keeps the pointer to the
state record in Go). -/
def RunOutcome.state : RunOutcome → State
  | .finished _ st => st
  | .failed _ st => st
  | .exited st => st

/-- The write-back after every non-classifier node in the runLangGraph
switch: copy the raw output into the current task result and route back
to the classifier. -/
def routeBack (st : State) : State :=
  { st with currentTask := { st.currentTask with result := st.rawOutput },
            nextNode := NodeTypeClassifier }

/-- The tail of one loop iteration of runLangGraph: return the error in
the name of the (already rewritten) pointer, otherwise install a
non-empty result as the final result and continue the loop. -/
def afterStep (k : State → Option RunOutcome) (ret : NodeRet) : Option RunOutcome :=
  match ret with
  | (some e, _, st2) =>
    some (.failed ("error in node ".toList ++ st2.nextNode ++ ": ".toList ++ e) st2)
  | (none, result, st2) =>
    k (if result ≠ [] then { st2 with finalResult := result } else st2)

/-- The node types the runLangGraph switch dispatches on. -/
def handledNodeTypes : List Str :=
  [NodeTypeClassifier, NodeTypeBash, NodeTypeValidation, NodeTypeFormatter,
   NodeTypeContentCollection, NodeTypeAnalytics, NodeTypeDirectResponse,
   NodeTypeCodeAnalyzer, NodeTypeCodeFixer]

/-- runLangGraph of cmd/aiagent main: loop until the pointer is terminal,
dispatching on the pointer; a pointer outside the switch is the invalid
node type error; fuel-indexed because the loop has no iteration bound. -/
def runG (env : GEnv) : Nat → State → Option RunOutcome
  | 0, _ => none
  | fuel + 1, st =>
    if st.nextNode = NodeTypeTerminal then some (.finished st.finalResult st)
    else if st.nextNode = NodeTypeClassifier then
      afterStep (runG env fuel) (ClassifierNode.Process env st)
    else if st.nextNode = NodeTypeBash then
      let ret := BashNode.Process env st
      afterStep (runG env fuel)
        (ret.1, ret.2.1,
         { ret.2.2 with currentTask := { ret.2.2.currentTask with result := ret.2.1 },
                        nextNode := NodeTypeClassifier })
    else if st.nextNode = NodeTypeValidation then
      let ret := ValidationNode.Process env st
      afterStep (runG env fuel) (ret.1, ret.2.1, routeBack ret.2.2)
    else if st.nextNode = NodeTypeFormatter then
      let ret := FormatterNode.Process env st
      afterStep (runG env fuel) (ret.1, ret.2.1, routeBack ret.2.2)
    else if st.nextNode = NodeTypeContentCollection then
      let ret := ContentCollectionNode.Process env st
      afterStep (runG env fuel) (ret.1, ret.2.1, routeBack ret.2.2)
    else if st.nextNode = NodeTypeAnalytics then
      let ret := AnalyticsNode.Process env st
      afterStep (runG env fuel) (ret.1, ret.2.1, routeBack ret.2.2)
    else if st.nextNode = NodeTypeDirectResponse then
      let ret := DirectResponseNode.Process env st
      afterStep (runG env fuel) (ret.1, ret.2.1, routeBack ret.2.2)
    else if st.nextNode = NodeTypeCodeAnalyzer then
      let ret := CodeAnalyzerNode.Process env st
      afterStep (runG env fuel) (ret.1, ret.2.1, routeBack ret.2.2)
    else if st.nextNode = NodeTypeCodeFixer then
      match CodeFixerNode.Process env st with
      | .ok st1 => some (.exited st1)
      | .error e => afterStep (runG env fuel) (some e, [], routeBack st)
    else some (.failed ("invalid node type: ".toList ++ st.nextNode) st)

end PkgNodes

namespace CmdNodes

open AgentStr

/-- Environment whose gateway calls fail and whose executions succeed
with the output done. -/
def stubEnv : Env :=
  { validateLLM := fun _ _ => .error "gateway down".toList,
    suggestLLM := fun _ _ _ _ _ => .error "gateway down".toList,
    exec := fun _ => .success "done".toList }

/-- Environment rating every command DANGEROUS with score 8. -/
def envDanger : Env :=
  { validateLLM := fun _ _ => .ok "DANGEROUS [8] deletes files".toList,
    suggestLLM := fun _ _ _ _ _ => .error "unused".toList,
    exec := fun _ => .success [] }

/-- Environment of scenario A: every command is rated SAFE with
score 2. -/
def envScenarioA : Env :=
  { validateLLM := fun _ _ => .ok "SAFE [2] simple listing".toList,
    suggestLLM := fun _ _ _ _ _ => .error "unused".toList,
    exec := fun _ => .success "files".toList }

/-- A command-not-found execution failure. -/
def failF : ExecFailure :=
  { goErr := "exit status 127".toList, detail := "Exit code: 127".toList,
    output := "bash: foo: command not found".toList }

/-- Environment whose executions fail and whose correction suggestion is
the failed command foo itself. -/
def envSuggestSame : Env :=
  { validateLLM := fun _ _ => .ok "SAFE [2] fine".toList,
    suggestLLM := fun _ _ _ _ _ => .ok "foo".toList,
    exec := fun _ => .failure failF }

/-- Environment whose executions fail and whose correction suggestion is
the distinct command bar. -/
def envSuggestAlt : Env :=
  { validateLLM := fun _ _ => .ok "SAFE [2] fine".toList,
    suggestLLM := fun _ _ _ _ _ => .ok "bar".toList,
    exec := fun _ => .failure failF }

/-- A fresh validation-node state for one command. -/
def baseState (input cmd : Str) : State :=
  { input := input, command := cmd, nextNode := "validation".toList,
    finalResult := [], rawOutput := [], workingDirectory := "/work".toList }

/-- State holding the command sudo ls -la. -/
def stSudo : State := baseState "list files".toList "sudo ls -la".toList

/-- State holding the command rm -rf /tmp/x. -/
def stRm : State := baseState "remove tmp".toList "rm -rf /tmp/x".toList

/-- State holding the command chmod +x run.sh. -/
def stChmod : State := baseState "make executable".toList "chmod +x run.sh".toList

/-- State holding the command ls -la. -/
def stLs : State := baseState "list files".toList "ls -la".toList

/-- State holding the command foo. -/
def stFoo : State := baseState "run foo".toList "foo".toList

end CmdNodes

namespace PkgNodes

open AgentStr

/-- Graph environment whose classifier oracles report the task done and
the goal met, and whose remaining oracles are unused stubs. -/
def stubGEnv : GEnv :=
  { verifyTaskCompletion := fun _ => .ok true,
    isGlobalGoalMet := fun _ _ => .ok true,
    classifyRequest := fun _ _ _ => .error "unused".toList,
    bashCommand := fun _ _ => .error "unused".toList,
    bashExec := fun _ _ => .failure [] [],
    validateOutput := fun _ _ _ => .error "unused".toList,
    formatOutput := fun _ _ => .error "unused".toList,
    matchPattern := fun _ _ => false,
    fileTree := .dir ".".toList 4096 [],
    analyzeHistory := fun _ _ _ => .error "unused".toList,
    directResponse := fun _ _ => .error "unused".toList,
    determineContentNeeds := fun _ _ => .error "unused".toList,
    findMatchingFiles := fun _ => .error "unused".toList,
    readCheckedFiles := fun _ _ _ => .error "unused".toList,
    analyzeContents := fun _ _ => .error "unused".toList,
    fixerAnalyzeCodebase := fun _ _ _ => .error "unused".toList,
    checkBuildability := fun _ => .ok (),
    fixBuildIssues := fun _ => .ok (),
    runTestSuite := fun _ => .ok (),
    fixTestIssues := fun _ => .ok (),
    fixerNextGoal := fun _ _ _ => .error "unused".toList,
    buildNewVersion := fun _ => .ok (),
    startNewVersion := fun _ => .ok () }

/-- Graph environment whose classifier selects an empty next node for a
fresh request. -/
def emptyRouteGEnv : GEnv :=
  { stubGEnv with classifyRequest := fun _ _ _ => .ok ([], []) }

/-- A current bash task with a recorded result. -/
def bashTask : TaskStatus :=
  { nodeType := "bash".toList, goal := "list files".toList,
    isCompleted := false, result := "total 0".toList }

/-- A run-state with one current bash task, empty history, and the
pointer at the classifier. -/
def baseGState : State :=
  { input := "list files".toList, command := [], nextNode := NodeTypeClassifier,
    finalResult := [], rawOutput := [], verbose := false,
    workingDirectory := "/work".toList, currentTask := bashTask,
    taskHistory := [], globalGoal := "list files".toList, isGoalMet := false,
    directoryContents := [], needsFileContent := false, filePatterns := [],
    fileCountLimit := 50, fileSizeLimit := 100000, analyticsQuestion := [] }

/-- The same run-state with no current task. -/
def freshGState : State := { baseGState with currentTask := emptyTask }

/-- A small file tree with a hidden directory, a hidden file, an
oversized file and a regular file. -/
def sampleTree : FSNode :=
  .dir ".".toList 4096
    [.dir ".git".toList 4096 [.file "config".toList 100 "secret".toList],
     .file ".env".toList 20 "TOKEN".toList,
     .file "big.log".toList 200000 "x".toList,
     .file "notes.md".toList 10 "hello".toList]

end PkgNodes

/-!  Helper lemmas, and then one theorem (with witness or counterexample as
needed) per checked property.  -/

namespace AgentStr

/-- The empty string is contained in every string. -/
theorem containsList_nil (l : Str) : containsList l [] = true := by
  cases l <;> simp [containsList]

/-- Containment is reached by dropping some front part of the string. -/
theorem containsList_of_append (pre mid post : Str) :
    containsList (pre ++ mid ++ post) mid = true := by
  induction pre with
  | nil =>
    cases mid with
    | nil => simp [containsList_nil]
    | cons c t =>
      simp only [List.nil_append, containsList, Bool.or_eq_true]
      left
      exact List.isPrefixOf_iff_prefix.mpr ⟨post, by simp⟩
  | cons c pre ih =>
    cases mid with
    | nil => simp [containsList]
    | cons d t =>
      simp only [List.cons_append, containsList, Bool.or_eq_true]
      right
      simpa using ih

end AgentStr

namespace CmdNodes

open AgentStr

/-- A pattern that matches at the head of some suffix matches
somewhere. -/
theorem anyPos_of_match (p : Str → Bool) (l : Str) (h : p l = true) :
    anyPos p l = true := by
  cases l with
  | nil => simpa [anyPos] using h
  | cons x t => simp [anyPos, h]

/-- Searching an extended string finds a match of the tail. -/
theorem anyPos_append (p : Str → Bool) (pre l : Str) (h : p l = true) :
    anyPos p (pre ++ l) = true := by
  induction pre with
  | nil => simpa using anyPos_of_match p l h
  | cons x t ih =>
    have hstep : anyPos p (x :: t ++ l) = (p (x :: (t ++ l)) || anyPos p (t ++ l)) := rfl
    rw [hstep, ih, Bool.or_true]

/-- The safe pattern fires on any string containing SAFE, a space, an
opening bracket and a digit between 1 and 3. -/
theorem safeMatch_contains (pre post : Str) (d : Char)
    (h1 : '1' ≤ d) (h2 : d ≤ '3') :
    safeMatch (pre ++ ('S' :: 'A' :: 'F' :: 'E' :: ' ' :: '[' :: d :: post)) = true := by
  apply anyPos_append
  have hred : matchSafeAt ('S' :: 'A' :: 'F' :: 'E' :: ' ' :: '[' :: d :: post)
      = decide ('1' ≤ d ∧ d ≤ '3') := rfl
  rw [hred]
  exact decide_eq_true ⟨h1, h2⟩

/-- The caution pattern fires on any string containing CAUTION, a space,
an opening bracket and a digit between 4 and 6. -/
theorem cautionMatch_contains (pre post : Str) (d : Char)
    (h1 : '4' ≤ d) (h2 : d ≤ '6') :
    cautionMatch (pre ++
      ('C' :: 'A' :: 'U' :: 'T' :: 'I' :: 'O' :: 'N' :: ' ' :: '[' :: d :: post)) = true := by
  apply anyPos_append
  have hred : matchCautionAt
      ('C' :: 'A' :: 'U' :: 'T' :: 'I' :: 'O' :: 'N' :: ' ' :: '[' :: d :: post)
      = decide ('4' ≤ d ∧ d ≤ '6') := rfl
  rw [hred]
  exact decide_eq_true ⟨h1, h2⟩

/-- The danger pattern fires on any string containing DANGEROUS, a space,
an opening bracket and a digit between 7 and 9. -/
theorem dangerMatch_contains (pre post : Str) (d : Char)
    (h1 : '7' ≤ d) (h2 : d ≤ '9') :
    dangerMatch (pre ++
      ('D' :: 'A' :: 'N' :: 'G' :: 'E' :: 'R' :: 'O' :: 'U' :: 'S' :: ' ' :: '[' :: d :: post))
      = true := by
  apply anyPos_append
  have hred : matchDangerAt
      ('D' :: 'A' :: 'N' :: 'G' :: 'E' :: 'R' :: 'O' :: 'U' :: 'S' :: ' ' :: '[' :: d :: post)
      = (decide ('7' ≤ d ∧ d ≤ '9') || (d = '1' && post.headD ' ' = '0')) := rfl
  rw [hred, decide_eq_true (show '7' ≤ d ∧ d ≤ '9' from ⟨h1, h2⟩), Bool.true_or]

/-- The danger pattern also fires on the written score 10. -/
theorem dangerMatch_contains_ten (pre post : Str) :
    dangerMatch (pre ++
      ('D' :: 'A' :: 'N' :: 'G' :: 'E' :: 'R' :: 'O' :: 'U' :: 'S' :: ' ' :: '[' :: '1' :: '0' :: post))
      = true := by
  apply anyPos_append
  rfl

/-- Prefixing no events changes nothing. -/
theorem prependEvents_nil (r : Option ProcResult) : prependEvents [] r = r := by
  cases r with
  | none => rfl
  | some x => rfl

/-- A command that fails the simulated test contains none of the four
simulated fragments. -/
theorem simulatedCheck_split (cmd : Str) (h : simulatedCheck cmd = false) :
    containsList cmd "ls -la".toList = false ∧ containsList cmd "df -h".toList = false ∧
    containsList cmd "uname -a".toList = false ∧ containsList cmd "free -h".toList = false := by
  simp [simulatedCheck, simulatedCommands] at h
  simpa using h

set_option maxRecDepth 10000 in
/-- C1, counterexample: the command sudo ls -la matches the static
blocklist, yet with force-approval unset it is executed (through the
simulated path that skips validation entirely) without any confirmation
prompt, against the claim that every non-(SAFE and clean) combination
prompts the operator. -/
theorem aiagent_C1_counterexample :
    isDangerousCommand "sudo ls -la".toList = true ∧
    ProcessV false stubEnv 1 stSudo [] =
      some ({ stSudo with rawOutput := simLsOutput,
                          finalResult := "Command output:\n".toList ++ simLsOutput,
                          nextNode := NodeTypeFormatter }, [],
            [Event.execSimulated "sudo ls -la".toList]) := by
  constructor
  · decide
  · decide

/-- C1 (amended): for a command that is not a simulated test command,
with force-approval unset and the model check returning an assessment,
the command goes straight to the execution phase with no prompt exactly
when the assessment parses safe and the static blocklist finds no match;
in every other combination the operator is prompted, a non-affirmative
answer yields the cancellation state with no execution, and an
affirmative answer proceeds to the execution phase. -/
theorem aiagent_C1_confirmation_policy (fuel : Nat) (env : Env) (st : State)
    (stdin : List Str) (a : Str)
    (hsim : simulatedCheck st.command = false)
    (hval : env.validateLLM st.command st.workingDirectory = .ok a) :
    ((validateParse a && !isDangerousCommand st.command) = true →
       ProcessV false env (fuel + 1) st stdin =
         execPhase (ProcessV false env fuel) env st stdin)
    ∧ ((validateParse a && !isDangerousCommand st.command) = false →
       (affirmative (stdin.headD []) = false →
          ProcessV false env (fuel + 1) st stdin =
            some (cancelState st, stdin.tail,
                  warnEvents st.command ++ [Event.confirmPrompt st.command]))
       ∧ (affirmative (stdin.headD []) = true →
          ProcessV false env (fuel + 1) st stdin =
            prependEvents (warnEvents st.command ++ [Event.confirmPrompt st.command])
              (execPhase (ProcessV false env fuel) env st stdin.tail))) := by
  refine ⟨?_, ?_⟩
  · intro h
    have hdang : isDangerousCommand st.command = false := by
      have := (Bool.and_eq_true _ _).mp h
      simpa using this.2
    have hwarn : warnEvents st.command = [] := by simp [warnEvents, hdang]
    simp [ProcessV, validationPhase, hsim, hval, h, hwarn, prependEvents_nil]
  · intro h
    constructor
    · intro hans
      simp [affirmative] at hans
      simp [ProcessV, validationPhase, hsim, hval, h, hans]
    · intro hans
      simp [affirmative] at hans
      rcases hans with h1 | h1 <;>
        simp [ProcessV, validationPhase, hsim, hval, h, h1]

/-- C1, witness: the dangerous command rm -rf /tmp/x rated DANGEROUS is
prompted, and the answer n cancels with the cancellation state. -/
theorem aiagent_C1_witness :
    ProcessV false envDanger 1 stRm [['n']] =
      some (cancelState stRm, [],
            warnEvents stRm.command ++ [Event.confirmPrompt stRm.command]) :=
  ((aiagent_C1_confirmation_policy 0 envDanger stRm [['n']]
      "DANGEROUS [8] deletes files".toList (by decide) rfl).2
    (by decide)).1 (by decide)

/-- C2, counterexample: the assessment SAFE [12] carries the score 12,
outside 1-10, yet it is not rejected: the safe regex accepts it (the
closing bracket is optional, so the leading digit 1 matches) and the
command is treated as safe to auto-execute. -/
theorem aiagent_C2_counterexample :
    ratingVerdict "SAFE [12] wipes the disk".toList = some Verdict.safe ∧
    validateParse "SAFE [12] wipes the disk".toList = true ∧ ¬ ((12 : Nat) ≤ 10) := by
  refine ⟨by decide, by decide, by decide⟩

/-- C2 (amended): the rating cascade is deterministic in source order:
any assessment containing SAFE [s] with s in 1-3 parses safe; one
containing CAUTION [s] with s in 4-6 parses caution when the safe
pattern does not match; one containing DANGEROUS [s] with s in 7-9, or
the written score 10, parses dangerous when neither earlier pattern
matches.  A score is rejected by the cascade only when no in-range score
for its tag is a leading-digit prefix of it, as for SAFE [0] and
DANGEROUS [11]; a rejected assessment then falls to the keyword
fallback, which still accepts SAFE [0] while DANGEROUS [11] defaults to
confirmation. -/
theorem aiagent_C2_rating_cascade :
    (∀ (pre post : Str) (d : Char), '1' ≤ d → d ≤ '3' →
       ratingVerdict (pre ++ ('S' :: 'A' :: 'F' :: 'E' :: ' ' :: '[' :: d :: post))
         = some Verdict.safe)
    ∧ (∀ (pre post : Str) (d : Char), '4' ≤ d → d ≤ '6' →
       safeMatch (pre ++ ('C' :: 'A' :: 'U' :: 'T' :: 'I' :: 'O' :: 'N' :: ' ' :: '[' :: d :: post)) = false →
       ratingVerdict (pre ++ ('C' :: 'A' :: 'U' :: 'T' :: 'I' :: 'O' :: 'N' :: ' ' :: '[' :: d :: post))
         = some Verdict.caution)
    ∧ (∀ (pre post : Str) (d : Char), '7' ≤ d → d ≤ '9' →
       safeMatch (pre ++ ('D' :: 'A' :: 'N' :: 'G' :: 'E' :: 'R' :: 'O' :: 'U' :: 'S' :: ' ' :: '[' :: d :: post)) = false →
       cautionMatch (pre ++ ('D' :: 'A' :: 'N' :: 'G' :: 'E' :: 'R' :: 'O' :: 'U' :: 'S' :: ' ' :: '[' :: d :: post)) = false →
       ratingVerdict (pre ++ ('D' :: 'A' :: 'N' :: 'G' :: 'E' :: 'R' :: 'O' :: 'U' :: 'S' :: ' ' :: '[' :: d :: post))
         = some Verdict.dangerous)
    ∧ (∀ (pre post : Str),
       safeMatch (pre ++ ('D' :: 'A' :: 'N' :: 'G' :: 'E' :: 'R' :: 'O' :: 'U' :: 'S' :: ' ' :: '[' :: '1' :: '0' :: post)) = false →
       cautionMatch (pre ++ ('D' :: 'A' :: 'N' :: 'G' :: 'E' :: 'R' :: 'O' :: 'U' :: 'S' :: ' ' :: '[' :: '1' :: '0' :: post)) = false →
       ratingVerdict (pre ++ ('D' :: 'A' :: 'N' :: 'G' :: 'E' :: 'R' :: 'O' :: 'U' :: 'S' :: ' ' :: '[' :: '1' :: '0' :: post))
         = some Verdict.dangerous)
    ∧ ratingVerdict "SAFE [0] fine".toList = none
    ∧ ratingVerdict "DANGEROUS [11] very bad".toList = none
    ∧ validateParse "SAFE [0] fine".toList = true
    ∧ validateParse "DANGEROUS [11] very bad".toList = false := by
  refine ⟨?_, ?_, ?_, ?_, by decide, by decide, by decide, by decide⟩
  · intro pre post d h1 h2
    simp [ratingVerdict, safeMatch_contains pre post d h1 h2]
  · intro pre post d h1 h2 hs
    simp [ratingVerdict, hs, cautionMatch_contains pre post d h1 h2]
  · intro pre post d h1 h2 hs hc
    simp [ratingVerdict, hs, hc, dangerMatch_contains pre post d h1 h2]
  · intro pre post hs hc
    simp [ratingVerdict, hs, hc, dangerMatch_contains_ten pre post]

/-- C2, witness: SAFE [2] parses safe and CAUTION [5] parses caution at
concrete assessments. -/
theorem aiagent_C2_witness :
    ratingVerdict ([] ++ ('S' :: 'A' :: 'F' :: 'E' :: ' ' :: '[' :: '2' :: "] ok".toList))
      = some Verdict.safe ∧
    ratingVerdict ([] ++ ('C' :: 'A' :: 'U' :: 'T' :: 'I' :: 'O' :: 'N' :: ' ' :: '[' :: '5' :: "] watch it".toList))
      = some Verdict.caution :=
  ⟨aiagent_C2_rating_cascade.1 [] "] ok".toList '2' (by decide) (by decide),
   aiagent_C2_rating_cascade.2.1 [] "] watch it".toList '5' (by decide) (by decide) (by decide)⟩

/-- C4: when execution fails and the trimmed suggestion is empty or
identical to the failed command, the validator surfaces the original
failure message as raw output and final result, consumes no operator
input, performs exactly the one failed execution, and never re-enters
the retry continuation, whatever that continuation is. -/
theorem aiagent_C4_no_retry (k : State → List Str → Option ProcResult) (env : Env)
    (st : State) (stdin : List Str) (f : ExecFailure) (r : Str)
    (hsim : simulatedCheck st.command = false)
    (hexec : env.exec st.command = .failure f)
    (hsug : env.suggestLLM st.input st.workingDirectory st.command
        (classifyErrorType (execErrorMessage f)) (execErrorMessage f) = .ok r)
    (hbad : trimSpace r = [] ∨ trimSpace r = st.command) :
    execPhase k env st stdin =
      some ({ st with rawOutput := execErrorMessage f, finalResult := execErrorMessage f,
                      nextNode := NodeTypeFormatter }, stdin, [Event.execReal st.command]) := by
  obtain ⟨h1, h2, h3, h4⟩ := simulatedCheck_split _ hsim
  simp at h1 h2 h3 h4
  simp [execPhase, h1, h2, h3, h4, hexec, suggestAlternativeCommand, hsug, hbad]

/-- C4, witness: the failed command foo whose suggested alternative is
foo itself surfaces the original failure, for the continuation that
would refuse to run anything. -/
theorem aiagent_C4_witness :
    execPhase (fun _ _ => none) envSuggestSame stFoo [] =
      some ({ stFoo with rawOutput := execErrorMessage failF,
                         finalResult := execErrorMessage failF,
                         nextNode := NodeTypeFormatter }, [],
            [Event.execReal stFoo.command]) :=
  aiagent_C4_no_retry (fun _ _ => none) envSuggestSame stFoo [] failF "foo".toList
    (by decide) rfl rfl (by decide)

set_option maxRecDepth 10000 in
/-- C5, counterexample: after the command foo fails and the alternative
bar is suggested, declining reports as final result the original failure
message with the alternative-suggestion note appended, which differs
from the original failure message alone. -/
theorem aiagent_C5_counterexample :
    ProcessV false envSuggestAlt 1 stFoo [['n']] =
      some ({ stFoo with
                rawOutput := execErrorMessage failF ++ altNote "bar".toList,
                finalResult := execErrorMessage failF ++ altNote "bar".toList,
                nextNode := NodeTypeFormatter }, [],
            [Event.execReal stFoo.command, Event.altPrompt stFoo.command "bar".toList]) ∧
    execErrorMessage failF ++ altNote "bar".toList ≠ execErrorMessage failF := by
  refine ⟨by decide, by decide⟩

/-- C5 (amended): when execution fails and a usable distinct alternative
is suggested, accepting replaces the active command with the trimmed
suggestion and re-runs the whole validate-and-execute procedure
(static check, model check and a further retry cycle included) on it;
declining reports the original failure message with the
alternative-suggestion note appended as the final result, with no
further execution. -/
theorem aiagent_C5_retry_on_alternative (force : Bool) (fuel : Nat) (env : Env)
    (st : State) (stdin : List Str) (f : ExecFailure) (r : Str)
    (hsim : simulatedCheck st.command = false)
    (hexec : env.exec st.command = .failure f)
    (hsug : env.suggestLLM st.input st.workingDirectory st.command
        (classifyErrorType (execErrorMessage f)) (execErrorMessage f) = .ok r)
    (hgood : ¬ (trimSpace r = [] ∨ trimSpace r = st.command)) :
    (affirmative (stdin.headD []) = true →
      execPhase (ProcessV force env fuel) env st stdin =
        prependEvents [Event.execReal st.command, Event.altPrompt st.command (trimSpace r)]
          (ProcessV force env fuel
            { st with command := trimSpace r,
                      rawOutput := execErrorMessage f ++ altNote (trimSpace r) }
            stdin.tail))
    ∧ (affirmative (stdin.headD []) = false →
      execPhase (ProcessV force env fuel) env st stdin =
        some ({ st with rawOutput := execErrorMessage f ++ altNote (trimSpace r),
                        finalResult := execErrorMessage f ++ altNote (trimSpace r),
                        nextNode := NodeTypeFormatter }, stdin.tail,
              [Event.execReal st.command, Event.altPrompt st.command (trimSpace r)])) := by
  obtain ⟨h1, h2, h3, h4⟩ := simulatedCheck_split _ hsim
  simp at h1 h2 h3 h4
  constructor
  · intro hans
    simp [affirmative] at hans
    rcases hans with ha | ha <;>
      simp [execPhase, h1, h2, h3, h4, hexec, suggestAlternativeCommand, hsug, hgood, ha]
  · intro hans
    simp [affirmative] at hans
    simp [execPhase, h1, h2, h3, h4, hexec, suggestAlternativeCommand, hsug, hgood, hans]

/-- C5, witness: accepting the alternative bar for the failed command foo
re-enters the full Process on the state whose command is bar. -/
theorem aiagent_C5_witness :
    execPhase (ProcessV false envSuggestAlt 1) envSuggestAlt stFoo [['y']] =
      prependEvents [Event.execReal stFoo.command,
                     Event.altPrompt stFoo.command (trimSpace "bar".toList)]
        (ProcessV false envSuggestAlt 1
          { stFoo with command := trimSpace "bar".toList,
                       rawOutput := execErrorMessage failF ++ altNote (trimSpace "bar".toList) }
          []) :=
  (aiagent_C5_retry_on_alternative false 1 envSuggestAlt stFoo [['y']] failF "bar".toList
    (by decide) rfl rfl (by decide)).1 (by decide)

set_option maxRecDepth 10000 in
/-- C7, counterexample: in scenario A the command ls -la is served by the
simulated path and the final result is the prefix Command output
followed by the canned listing, so it does not equal the raw command
output. -/
theorem aiagent_C7_counterexample :
    ProcessV false envScenarioA 1 stLs [] =
      some ({ stLs with rawOutput := simLsOutput,
                        finalResult := "Command output:\n".toList ++ simLsOutput,
                        nextNode := NodeTypeFormatter }, [],
            [Event.execSimulated stLs.command]) ∧
    "Command output:\n".toList ++ simLsOutput ≠ simLsOutput := by
  refine ⟨by decide, by decide⟩

/-- C7 (amended): for any state whose command is ls -la, with
force-approval unset, validation is skipped because ls -la is a built-in
simulated test command, no confirmation prompt is issued, no operator
input is consumed, the canned listing becomes the raw output, and the
final result is the prefix Command output followed by that listing. -/
theorem aiagent_C7_scenarioA (fuel : Nat) (env : Env) (st : State) (stdin : List Str)
    (hcmd : st.command = "ls -la".toList) :
    ProcessV false env (fuel + 1) st stdin =
      some ({ st with rawOutput := simLsOutput,
                      finalResult := "Command output:\n".toList ++ simLsOutput,
                      nextNode := NodeTypeFormatter }, stdin,
            [Event.execSimulated st.command]) := by
  obtain ⟨inp, cmd, nn, fr, ro, wd⟩ := st
  simp only at hcmd
  subst hcmd
  simp +decide [ProcessV, validationPhase, execPhase, prependEvents_nil]

/-- C7, witness: the scenario-A run at a concrete state. -/
theorem aiagent_C7_witness :
    ProcessV false envScenarioA 2 stLs [] =
      some ({ stLs with rawOutput := simLsOutput,
                        finalResult := "Command output:\n".toList ++ simLsOutput,
                        nextNode := NodeTypeFormatter }, [],
            [Event.execSimulated stLs.command]) :=
  aiagent_C7_scenarioA 1 envScenarioA stLs [] (by decide)

/-- C10: when the model safety check fails with an error on a
non-simulated, non-force-approved command, Process records the warning
and falls through to the execution phase with no confirmation prompt and
no operator input consumed, whether or not the static blocklist
matched. -/
theorem aiagent_C10_gateway_error (fuel : Nat) (env : Env) (st : State)
    (stdin : List Str) (e : Str)
    (hsim : simulatedCheck st.command = false)
    (hval : env.validateLLM st.command st.workingDirectory = .error e) :
    ProcessV false env (fuel + 1) st stdin =
      prependEvents (warnEvents st.command ++ [Event.validateFailWarn st.command])
        (execPhase (ProcessV false env fuel) env st stdin) := by
  simp [ProcessV, validationPhase, hsim, hval]

/-- C10, witness: the blocklisted command chmod +x run.sh proceeds to
execution when the safety gateway fails. -/
theorem aiagent_C10_witness :
    ProcessV false stubEnv 1 stChmod [] =
      prependEvents (warnEvents stChmod.command ++ [Event.validateFailWarn stChmod.command])
        (execPhase (ProcessV false stubEnv 0) stubEnv stChmod []) :=
  aiagent_C10_gateway_error 0 stubEnv stChmod [] "gateway down".toList
    (by decide) rfl

end CmdNodes

namespace PkgNodes

open AgentStr

/-- The classify branch leaves the task history unchanged. -/
theorem hist_classifyStep (env : GEnv) (st : State) :
    (ClassifierNode.classifyStep env st).2.2.taskHistory = st.taskHistory := by
  unfold ClassifierNode.classifyStep
  cases env.classifyRequest st.input st.globalGoal st.taskHistory with
  | error e => rfl
  | ok p => cases p with | mk nn goal => rfl

/-- One classifier step either leaves the history unchanged or appends
exactly the completed current task at the end. -/
theorem hist_classifier (env : GEnv) (st : State) :
    (ClassifierNode.Process env st).2.2.taskHistory = st.taskHistory ∨
    (ClassifierNode.Process env st).2.2.taskHistory
      = st.taskHistory ++ [{ st.currentTask with isCompleted := true }] := by
  unfold ClassifierNode.Process
  by_cases hcur : st.currentTask.nodeType ≠ []
  · rw [if_pos hcur]
    cases hv : env.verifyTaskCompletion st.currentTask with
    | error e => left; rfl
    | ok completed =>
      cases completed with
      | false => left; simpa using hist_classifyStep env _
      | true =>
        dsimp only
        cases hg : env.isGlobalGoalMet st.globalGoal
            (st.taskHistory ++ [{ st.currentTask with isCompleted := true }]) with
        | error e => right; rfl
        | ok goalMet =>
          cases goalMet with
          | true => right; rfl
          | false => right; simpa using hist_classifyStep env _
  · rw [if_neg hcur]
    left; simpa using hist_classifyStep env _

theorem hist_bash (env : GEnv) (st : State) :
    (BashNode.Process env st).2.2.taskHistory = st.taskHistory := by
  unfold BashNode.Process
  cases env.bashCommand st.currentTask.goal st.input with
  | error e => rfl
  | ok command =>
    dsimp only
    cases validateCommand command with
    | error e => rfl
    | ok u =>
      dsimp only
      cases env.bashExec st.workingDirectory command with
      | failure o m => rfl
      | success o => rfl

theorem hist_validation (env : GEnv) (st : State) :
    (ValidationNode.Process env st).2.2.taskHistory = st.taskHistory := by
  unfold ValidationNode.Process
  cases env.validateOutput st.command st.rawOutput st.currentTask.goal with
  | error e => rfl
  | ok p => obtain ⟨v, i, ex⟩ := p; rfl

theorem hist_formatter (env : GEnv) (st : State) :
    (FormatterNode.Process env st).2.2.taskHistory = st.taskHistory := by
  unfold FormatterNode.Process
  cases env.formatOutput st.rawOutput st.currentTask.goal with
  | error e => rfl
  | ok p => rfl

theorem hist_contentCollection (env : GEnv) (st : State) :
    (ContentCollectionNode.Process env st).2.2.taskHistory = st.taskHistory := rfl

theorem hist_analytics (env : GEnv) (st : State) :
    (AnalyticsNode.Process env st).2.2.taskHistory = st.taskHistory := by
  unfold AnalyticsNode.Process
  cases env.analyzeHistory st.globalGoal st.taskHistory st.currentTask.result with
  | error e => rfl
  | ok p => obtain ⟨i, r, ex⟩ := p; rfl

theorem hist_directResponse (env : GEnv) (st : State) :
    (DirectResponseNode.Process env st).2.2.taskHistory = st.taskHistory := by
  unfold DirectResponseNode.Process
  cases env.directResponse st.currentTask.goal st.input with
  | error e => rfl
  | ok r => rfl

theorem hist_codeAnalyzer (env : GEnv) (st : State) :
    (CodeAnalyzerNode.Process env st).2.2.taskHistory = st.taskHistory := by
  unfold CodeAnalyzerNode.Process
  cases env.determineContentNeeds st.currentTask.goal st.workingDirectory with
  | error e => rfl
  | ok p =>
    obtain ⟨needs, patterns⟩ := p
    dsimp only
    cases needs with
    | false => rfl
    | true =>
      simp only [Bool.not_true, Bool.false_eq_true, if_false]
      cases env.findMatchingFiles patterns with
      | error e => rfl
      | ok files =>
        dsimp only
        cases env.readCheckedFiles files st.workingDirectory st.fileSizeLimit with
        | error e => rfl
        | ok contents =>
          dsimp only
          cases env.analyzeContents st.currentTask.goal contents with
          | error e => rfl
          | ok analysis => rfl

theorem hist_codeFixer (env : GEnv) (st : State) (st' : State)
    (h : CodeFixerNode.Process env st = .ok st') :
    st'.taskHistory = st.taskHistory := by
  unfold CodeFixerNode.Process at h
  repeat' split at h
  all_goals try dsimp only at h
  repeat' split at h
  all_goals try exact (Except.noConfusion h)
  injection h with h2
  subst h2
  rfl

/-- The iteration tail preserves any history fact of the handler
state, given the continuation does. -/
theorem afterStep_hist (k : State → Option RunOutcome) (ret : NodeRet) (out : RunOutcome)
    (hk : ∀ st1 out1, k st1 = some out1 →
        ∃ tail, out1.state.taskHistory = st1.taskHistory ++ tail)
    (h : afterStep k ret = some out) :
    ∃ tail, out.state.taskHistory = ret.2.2.taskHistory ++ tail := by
  obtain ⟨err, result, st2⟩ := ret
  cases err with
  | some e =>
    simp [afterStep] at h
    exact ⟨[], by rw [← h]; simp [RunOutcome.state]⟩
  | none =>
    simp only [afterStep] at h
    obtain ⟨tail, ht⟩ := hk _ _ h
    have hsame : (if result ≠ [] then { st2 with finalResult := result } else st2).taskHistory
        = st2.taskHistory := by split <;> rfl
    rw [hsame] at ht
    exact ⟨tail, ht⟩

/-- The write-back after a non-classifier node leaves the history
unchanged. -/
theorem routeBack_hist (st : State) : (routeBack st).taskHistory = st.taskHistory := rfl

/-- One dispatch step whose handler state keeps the base history. -/
theorem runG_hist_step (k : State → Option RunOutcome) (err : Option Str) (res : Str)
    (st2 : State) (base : List TaskStatus) (out : RunOutcome)
    (hk : ∀ s o, k s = some o → ∃ tail, o.state.taskHistory = s.taskHistory ++ tail)
    (h : afterStep k (err, res, st2) = some out)
    (hhist : st2.taskHistory = base) :
    ∃ tail, out.state.taskHistory = base ++ tail := by
  obtain ⟨tail, ht⟩ := afterStep_hist k (err, res, st2) out hk h
  exact ⟨tail, by rw [ht, hhist]⟩

/-- Any terminating run only ever extends the task history at the
end. -/
theorem runG_hist (env : GEnv) : ∀ (fuel : Nat) (st : State) (out : RunOutcome),
    runG env fuel st = some out →
    ∃ tail, out.state.taskHistory = st.taskHistory ++ tail := by
  intro fuel
  induction fuel with
  | zero => intro st out h; simp [runG] at h
  | succ n ih =>
    intro st out h
    unfold runG at h
    by_cases h0 : st.nextNode = NodeTypeTerminal
    · rw [if_pos h0] at h
      refine ⟨[], ?_⟩
      have hout : RunOutcome.finished st.finalResult st = out := by simpa using h
      rw [← hout]
      simp [RunOutcome.state]
    · rw [if_neg h0] at h
      by_cases h1 : st.nextNode = NodeTypeClassifier
      · rw [if_pos h1] at h
        obtain ⟨tail, ht⟩ := afterStep_hist _ _ _ (fun s o hh => ih s o hh) h
        rcases hist_classifier env st with hc | hc
        · exact ⟨tail, by rw [ht, hc]⟩
        · exact ⟨[{ st.currentTask with isCompleted := true }] ++ tail,
            by rw [ht, hc, List.append_assoc]⟩
      · rw [if_neg h1] at h
        by_cases h2 : st.nextNode = NodeTypeBash
        · rw [if_pos h2] at h
          exact runG_hist_step _ _ _ _ _ _ (fun s o hh => ih s o hh) h (hist_bash env st)
        · rw [if_neg h2] at h
          by_cases h3 : st.nextNode = NodeTypeValidation
          · rw [if_pos h3] at h
            exact runG_hist_step _ _ _ _ _ _ (fun s o hh => ih s o hh) h (hist_validation env st)
          · rw [if_neg h3] at h
            by_cases h4 : st.nextNode = NodeTypeFormatter
            · rw [if_pos h4] at h
              exact runG_hist_step _ _ _ _ _ _ (fun s o hh => ih s o hh) h (hist_formatter env st)
            · rw [if_neg h4] at h
              by_cases h5 : st.nextNode = NodeTypeContentCollection
              · rw [if_pos h5] at h
                exact runG_hist_step _ _ _ _ _ _ (fun s o hh => ih s o hh) h
                  (hist_contentCollection env st)
              · rw [if_neg h5] at h
                by_cases h6 : st.nextNode = NodeTypeAnalytics
                · rw [if_pos h6] at h
                  exact runG_hist_step _ _ _ _ _ _ (fun s o hh => ih s o hh) h
                    (hist_analytics env st)
                · rw [if_neg h6] at h
                  by_cases h7 : st.nextNode = NodeTypeDirectResponse
                  · rw [if_pos h7] at h
                    exact runG_hist_step _ _ _ _ _ _ (fun s o hh => ih s o hh) h
                      (hist_directResponse env st)
                  · rw [if_neg h7] at h
                    by_cases h8 : st.nextNode = NodeTypeCodeAnalyzer
                    · rw [if_pos h8] at h
                      exact runG_hist_step _ _ _ _ _ _ (fun s o hh => ih s o hh) h
                        (hist_codeAnalyzer env st)
                    · rw [if_neg h8] at h
                      by_cases h9 : st.nextNode = NodeTypeCodeFixer
                      · rw [if_pos h9] at h
                        cases hf : CodeFixerNode.Process env st with
                        | ok st1 =>
                          rw [hf] at h
                          refine ⟨[], ?_⟩
                          have hout : RunOutcome.exited st1 = out := by simpa using h
                          rw [← hout]
                          simpa [RunOutcome.state] using hist_codeFixer env st st1 hf
                        | error e =>
                          rw [hf] at h
                          exact runG_hist_step _ _ _ _ _ _ (fun s o hh => ih s o hh) h
                            (routeBack_hist st)
                      · rw [if_neg h9] at h
                        refine ⟨[], ?_⟩
                        have hout : RunOutcome.failed
                            ("invalid node type: ".toList ++ st.nextNode) st = out := by
                          simpa using h
                        rw [← hout]
                        simp [RunOutcome.state]

/-- A pointer outside the switch makes the loop return the invalid node
type error at once, for every environment, with the state untouched. -/
theorem runG_invalid (env : GEnv) (fuel : Nat) (st : State)
    (hterm : st.nextNode ≠ NodeTypeTerminal)
    (h : ¬ st.nextNode ∈ handledNodeTypes) :
    runG env (fuel + 1) st =
      some (.failed ("invalid node type: ".toList ++ st.nextNode) st) := by
  simp [handledNodeTypes] at h
  obtain ⟨h1, h2, h3, h4, h5, h6, h7, h8, h9⟩ := h
  simp [runG, hterm, h1, h2, h3, h4, h5, h6, h7, h8, h9]

mutual
theorem walkNode_count (m : Str → Str → Bool) (p : List Str) (r : Bool)
    (path : Str) (n : FSNode) (acc : WalkAcc)
    (hlen : acc.count = acc.contents.length) (hle : acc.count ≤ 500) :
    ((walkNode m p r path n acc).1.count = (walkNode m p r path n acc).1.contents.length) ∧
    (walkNode m p r path n acc).1.count ≤ 500 := by
  unfold walkNode
  by_cases hc : acc.count ≥ 500
  · rw [if_pos hc]; exact ⟨hlen, hle⟩
  · rw [if_neg hc]
    by_cases hh : isHiddenName n.name = true
    · simp only [hh, if_true]; exact ⟨hlen, hle⟩
    · simp only [hh, if_false]
      by_cases hp : (!n.isDir && !p.isEmpty && !(p.any (fun q => m q n.name))) = true
      · rw [if_pos hp]; exact ⟨hlen, hle⟩
      · rw [if_neg hp]
        have hlt : acc.count < 500 := by omega
        cases n with
        | file nm sz ct =>
          refine ⟨?_, by simp; omega⟩
          simp [hlen]
        | dir nm sz entries =>
          apply walkChildren_count
          · simp [hlen]
          · simp; omega

theorem walkChildren_count (m : Str → Str → Bool) (p : List Str) (r : Bool)
    (parentPath : Str) (l : List FSNode) (acc : WalkAcc)
    (hlen : acc.count = acc.contents.length) (hle : acc.count ≤ 500) :
    ((walkChildren m p r parentPath l acc).count
      = (walkChildren m p r parentPath l acc).contents.length) ∧
    (walkChildren m p r parentPath l acc).count ≤ 500 := by
  unfold walkChildren
  cases l with
  | nil => exact ⟨hlen, hle⟩
  | cons c rest =>
    have hc := walkNode_count m p r (parentPath ++ "/".toList ++ c.name) c acc hlen hle
    by_cases hs : (walkNode m p r (parentPath ++ "/".toList ++ c.name) c acc).2 = true
    · simp only [hs, if_true]
      exact hc
    · simp only [hs, if_false]
      exact walkChildren_count m p r parentPath rest _ hc.1 hc.2
end

mutual
theorem walkNode_mem (m : Str → Str → Bool) (p : List Str) (r : Bool)
    (path : Str) (n : FSNode) (acc : WalkAcc) :
    ∀ fc ∈ (walkNode m p r path n acc).1.contents,
      fc ∈ acc.contents ∨ fc.path ∈ specVisiblePaths path n := by
  unfold walkNode
  by_cases hc : acc.count ≥ 500
  · rw [if_pos hc]; intro fc hfc; exact Or.inl hfc
  · rw [if_neg hc]
    by_cases hh : isHiddenName n.name = true
    · simp only [hh, if_true]; intro fc hfc; exact Or.inl hfc
    · simp only [hh, if_false]
      by_cases hp : (!n.isDir && !p.isEmpty && !(p.any (fun q => m q n.name))) = true
      · rw [if_pos hp]; intro fc hfc; exact Or.inl hfc
      · rw [if_neg hp]
        cases n with
        | file nm sz ct =>
          intro fc hfc
          simp at hfc
          rcases hfc with hfc | hfc
          · exact Or.inl hfc
          · right
            have hh2 : isHiddenName nm = false := by
              simpa [FSNode.name] using hh
            simp [specVisiblePaths, hh2, hfc]
        | dir nm sz entries =>
          intro fc hfc
          simp only [Bool.false_eq_true, if_false] at hfc
          have := walkChildren_mem m p r path entries _ fc hfc
          have hh2 : isHiddenName nm = false := by
            simpa [FSNode.name] using hh
          rcases this with hin | hin
          · simp at hin
            rcases hin with hin | hin
            · exact Or.inl hin
            · right
              simp [specVisiblePaths, hh2, hin]
          · right
            simp [specVisiblePaths, hh2]
            right
            simpa using hin

theorem walkChildren_mem (m : Str → Str → Bool) (p : List Str) (r : Bool)
    (parentPath : Str) (l : List FSNode) (acc : WalkAcc) :
    ∀ fc ∈ (walkChildren m p r parentPath l acc).contents,
      fc ∈ acc.contents ∨ fc.path ∈ specVisiblePathsList parentPath l := by
  unfold walkChildren
  cases l with
  | nil => intro fc hfc; exact Or.inl hfc
  | cons c rest =>
    intro fc hfc
    by_cases hs : (walkNode m p r (parentPath ++ "/".toList ++ c.name) c acc).2 = true
    · simp only [hs, if_true] at hfc
      rcases walkNode_mem m p r _ c acc fc hfc with hin | hin
      · exact Or.inl hin
      · right
        simp [specVisiblePathsList]
        exact Or.inl (by simpa using hin)
    · simp only [hs, if_false] at hfc
      rcases walkChildren_mem m p r parentPath rest _ fc hfc with hin | hin
      · rcases walkNode_mem m p r _ c acc fc hin with hin2 | hin2
        · exact Or.inl hin2
        · right
          simp [specVisiblePathsList]
          exact Or.inl (by simpa using hin2)
      · right
        simp [specVisiblePathsList]
        exact Or.inr hin
end

mutual
theorem walkNode_big (m : Str → Str → Bool) (p : List Str) (r : Bool)
    (path : Str) (n : FSNode) (acc : WalkAcc)
    (hacc : ∀ fc ∈ acc.contents, fc.isDir = false → 100 * 1024 < fc.size → fc.content = []) :
    ∀ fc ∈ (walkNode m p r path n acc).1.contents,
      fc.isDir = false → 100 * 1024 < fc.size → fc.content = [] := by
  unfold walkNode
  by_cases hc : acc.count ≥ 500
  · rw [if_pos hc]; exact hacc
  · rw [if_neg hc]
    by_cases hh : isHiddenName n.name = true
    · simp only [hh, if_true]; exact hacc
    · simp only [hh, if_false]
      by_cases hp : (!n.isDir && !p.isEmpty && !(p.any (fun q => m q n.name))) = true
      · rw [if_pos hp]; exact hacc
      · rw [if_neg hp]
        have hnew : ∀ fc ∈ (acc.contents ++
            [({ path := path,
                content :=
                  if r && !n.isDir && decide (n.size ≤ 100 * 1024) then
                    (if isTextFile n.name then n.body else "[binary file]".toList)
                  else [],
                size := n.size, isDir := n.isDir } : FileContent)]),
            fc.isDir = false → 100 * 1024 < fc.size → fc.content = [] := by
          intro fc hfc hd hsz
          simp at hfc
          rcases hfc with hfc | hfc
          · exact hacc fc hfc hd hsz
          · subst hfc
            simp only at hsz ⊢
            have hfalse : ¬ (n.size ≤ 100 * 1024) := by omega
            simp [hfalse]
            intro _ _ h102
            omega
        cases n with
        | file nm sz ct => exact hnew
        | dir nm sz entries =>
          intro fc hfc
          exact walkChildren_big m p r path entries _ hnew fc hfc

theorem walkChildren_big (m : Str → Str → Bool) (p : List Str) (r : Bool)
    (parentPath : Str) (l : List FSNode) (acc : WalkAcc)
    (hacc : ∀ fc ∈ acc.contents, fc.isDir = false → 100 * 1024 < fc.size → fc.content = []) :
    ∀ fc ∈ (walkChildren m p r parentPath l acc).contents,
      fc.isDir = false → 100 * 1024 < fc.size → fc.content = [] := by
  unfold walkChildren
  cases l with
  | nil => exact hacc
  | cons c rest =>
    have h1 := walkNode_big m p r (parentPath ++ "/".toList ++ c.name) c acc hacc
    by_cases hs : (walkNode m p r (parentPath ++ "/".toList ++ c.name) c acc).2 = true
    · simp only [hs, if_true]; exact h1
    · simp only [hs, if_false]
      exact walkChildren_big m p r parentPath rest _ h1
end

end PkgNodes

namespace PkgNodes

open AgentStr

/-- C6: when the classifier verifies the current task complete and the
model judges the global goal met, exactly that one task (flagged
completed) is appended to the history, the pointer is set to terminal,
the current task is cleared, no new task is created, and the history
grows by exactly one entry. -/
theorem aiagent_C6_terminal_no_new_task (env : GEnv) (st : State)
    (hcur : st.currentTask.nodeType ≠ [])
    (hver : env.verifyTaskCompletion st.currentTask = .ok true)
    (hgoal : env.isGlobalGoalMet st.globalGoal
        (st.taskHistory ++ [{ st.currentTask with isCompleted := true }]) = .ok true) :
    ClassifierNode.Process env st =
      (none, [],
       { st with taskHistory := st.taskHistory ++ [{ st.currentTask with isCompleted := true }],
                 nextNode := NodeTypeTerminal, currentTask := emptyTask })
    ∧ ((ClassifierNode.Process env st).2.2.taskHistory).length = st.taskHistory.length + 1 := by
  have h : ClassifierNode.Process env st =
      (none, [],
       { st with taskHistory := st.taskHistory ++ [{ st.currentTask with isCompleted := true }],
                 nextNode := NodeTypeTerminal, currentTask := emptyTask }) := by
    simp [ClassifierNode.Process, hcur, hver, hgoal]
  exact ⟨h, by rw [h]; simp⟩

/-- C6, witness: the one-completed-bash-task scenario at a concrete
state with empty history terminates with history length one. -/
theorem aiagent_C6_witness :
    ClassifierNode.Process stubGEnv baseGState =
      (none, [],
       { baseGState with
           taskHistory := baseGState.taskHistory ++
             [{ baseGState.currentTask with isCompleted := true }],
           nextNode := NodeTypeTerminal, currentTask := emptyTask })
    ∧ ((ClassifierNode.Process stubGEnv baseGState).2.2.taskHistory).length
        = baseGState.taskHistory.length + 1 :=
  aiagent_C6_terminal_no_new_task stubGEnv baseGState (by decide) rfl rfl

/-- C3: a next-node value outside the dispatch switch, the empty string
included, makes the run return the invalid node type routing error on
the very next iteration, before any node handler is dispatched on it
(the result is the same for every environment and the state is returned
unchanged apart from the classifier write); it is neither a silent no-op
nor silently defaulted. -/
theorem aiagent_C3_routing_error (env : GEnv) (fuel : Nat) (st : State) (nn goal : Str)
    (hnode : st.nextNode = NodeTypeClassifier)
    (hcur : st.currentTask.nodeType = [])
    (hcl : env.classifyRequest st.input st.globalGoal st.taskHistory = .ok (nn, goal))
    (hne : ¬ nn ∈ handledNodeTypes) (hnt : nn ≠ NodeTypeTerminal) :
    (goal = [] →
      runG env (fuel + 2) st =
        some (.failed ("invalid node type: ".toList ++ nn)
          { st with nextNode := nn,
                    currentTask := { nodeType := nn, goal := goal,
                                     isCompleted := false, result := [] } }))
    ∧ (goal ≠ [] →
      runG env (fuel + 2) st =
        some (.failed ("invalid node type: ".toList ++ nn)
          { st with nextNode := nn, finalResult := goal,
                    currentTask := { nodeType := nn, goal := goal,
                                     isCompleted := false, result := [] } })) := by
  have hterm : st.nextNode ≠ NodeTypeTerminal := by
    rw [hnode]; decide
  have hstep : ClassifierNode.Process env st =
      (none, goal,
       { st with nextNode := nn,
                 currentTask := { nodeType := nn, goal := goal,
                                  isCompleted := false, result := [] } }) := by
    simp [ClassifierNode.Process, ClassifierNode.classifyStep, hcur, hcl]
  simp [handledNodeTypes] at hne
  obtain ⟨h1, h2, h3, h4, h5, h6, h7, h8, h9⟩ := hne
  have hct : ¬ NodeTypeClassifier = NodeTypeTerminal := by decide
  constructor
  · intro hg
    subst hg
    simp [runG, hterm, hnode, hstep, afterStep, hnt, hct, h1, h2, h3, h4, h5, h6, h7, h8, h9]
  · intro hg
    simp [runG, hterm, hnode, hstep, afterStep, hg, hnt, hct, h1, h2, h3, h4, h5, h6, h7, h8, h9]

/-- C3, witness: a classifier reply with an empty next node makes the
run fail with the routing error. -/
theorem aiagent_C3_witness :
    runG emptyRouteGEnv (0 + 2) freshGState =
      some (.failed ("invalid node type: ".toList ++ ([] : Str))
        { freshGState with
            nextNode := ([] : Str)
            currentTask := { nodeType := [], goal := [],
                             isCompleted := false, result := [] } }) :=
  (aiagent_C3_routing_error emptyRouteGEnv 0 freshGState [] [] rfl rfl rfl
    (by decide) (by decide)).1 rfl

/-- C8: the task history is append-only and order-preserving: any
terminating run extends the initial history, one classifier step appends
exactly the completed current task when the completion check passes and
leaves the history unchanged when it fails or no task is current, and no
other node handler ever touches the history; hence after N completed
tasks the history holds exactly the N completed tasks in completion
order. -/
theorem aiagent_C8_history_append_only :
    (∀ (env : GEnv) (fuel : Nat) (st : State) (out : RunOutcome),
        runG env fuel st = some out →
        ∃ tail, out.state.taskHistory = st.taskHistory ++ tail)
    ∧ (∀ (env : GEnv) (st : State),
        st.currentTask.nodeType ≠ [] →
        env.verifyTaskCompletion st.currentTask = .ok true →
        (ClassifierNode.Process env st).2.2.taskHistory
          = st.taskHistory ++ [{ st.currentTask with isCompleted := true }])
    ∧ (∀ (env : GEnv) (st : State),
        env.verifyTaskCompletion st.currentTask = .ok false →
        (ClassifierNode.Process env st).2.2.taskHistory = st.taskHistory)
    ∧ (∀ (env : GEnv) (st : State),
        st.currentTask.nodeType = [] →
        (ClassifierNode.Process env st).2.2.taskHistory = st.taskHistory)
    ∧ (∀ (env : GEnv) (st : State),
        (BashNode.Process env st).2.2.taskHistory = st.taskHistory)
    ∧ (∀ (env : GEnv) (st : State),
        (ValidationNode.Process env st).2.2.taskHistory = st.taskHistory)
    ∧ (∀ (env : GEnv) (st : State),
        (FormatterNode.Process env st).2.2.taskHistory = st.taskHistory)
    ∧ (∀ (env : GEnv) (st : State),
        (ContentCollectionNode.Process env st).2.2.taskHistory = st.taskHistory)
    ∧ (∀ (env : GEnv) (st : State),
        (AnalyticsNode.Process env st).2.2.taskHistory = st.taskHistory)
    ∧ (∀ (env : GEnv) (st : State),
        (DirectResponseNode.Process env st).2.2.taskHistory = st.taskHistory)
    ∧ (∀ (env : GEnv) (st : State),
        (CodeAnalyzerNode.Process env st).2.2.taskHistory = st.taskHistory)
    ∧ (∀ (env : GEnv) (st st' : State),
        CodeFixerNode.Process env st = .ok st' → st'.taskHistory = st.taskHistory) := by
  refine ⟨runG_hist, ?_, ?_, ?_, hist_bash, hist_validation, hist_formatter,
          hist_contentCollection, hist_analytics, hist_directResponse,
          hist_codeAnalyzer, hist_codeFixer⟩
  · intro env st hcur hver
    unfold ClassifierNode.Process
    rw [if_pos hcur, hver]
    dsimp only
    cases hg : env.isGlobalGoalMet st.globalGoal
        (st.taskHistory ++ [{ st.currentTask with isCompleted := true }]) with
    | error e => rfl
    | ok gm =>
      cases gm with
      | true => rfl
      | false => simpa using hist_classifyStep env _
  · intro env st hver
    unfold ClassifierNode.Process
    by_cases hcur : st.currentTask.nodeType ≠ []
    · rw [if_pos hcur, hver]
      simpa using hist_classifyStep env _
    · rw [if_neg hcur]
      simpa using hist_classifyStep env _
  · intro env st hcur
    unfold ClassifierNode.Process
    rw [if_neg (by simp [hcur])]
    simpa using hist_classifyStep env _

/-- C8, witness: a one-step terminal run extends the history by nothing,
and the concrete classifier step appends exactly the completed task. -/
theorem aiagent_C8_witness :
    (∃ tail, (RunOutcome.finished baseGState.finalResult
        { baseGState with nextNode := NodeTypeTerminal }).state.taskHistory
      = ({ baseGState with nextNode := NodeTypeTerminal } : State).taskHistory ++ tail)
    ∧ (ClassifierNode.Process stubGEnv baseGState).2.2.taskHistory
        = baseGState.taskHistory ++ [{ baseGState.currentTask with isCompleted := true }] :=
  ⟨aiagent_C8_history_append_only.1 stubGEnv 1
      { baseGState with nextNode := NodeTypeTerminal }
      (RunOutcome.finished baseGState.finalResult
        { baseGState with nextNode := NodeTypeTerminal })
      (by decide),
   aiagent_C8_history_append_only.2.1 stubGEnv baseGState (by decide) rfl⟩

/-- C9: every directory walk of content collection returns at most 500
entries; every listed entry lies at a visible path, so hidden files and
directories (names starting with a dot other than the bare current
directory dot) are excluded together with their subtrees; and every
listed regular file larger than 100 KB carries no body. -/
theorem aiagent_C9_collection_bounds (matchFn : Str → Str → Bool)
    (patterns : List Str) (readContents : Bool) (rootDir : Str) (root : FSNode) :
    (collectDirectoryContents matchFn rootDir root patterns readContents).length ≤ 500
    ∧ (∀ fc ∈ collectDirectoryContents matchFn rootDir root patterns readContents,
        fc.path ∈ specVisiblePaths rootDir root)
    ∧ (∀ fc ∈ collectDirectoryContents matchFn rootDir root patterns readContents,
        fc.isDir = false → 100 * 1024 < fc.size → fc.content = []) := by
  refine ⟨?_, ?_, ?_⟩
  · obtain ⟨hl, hb⟩ := walkNode_count matchFn patterns readContents rootDir root
      { contents := [], count := 0 } rfl (by decide)
    unfold collectDirectoryContents
    omega
  · intro fc hfc
    rcases walkNode_mem matchFn patterns readContents rootDir root
        { contents := [], count := 0 } fc hfc with h | h
    · simp at h
    · exact h
  · intro fc hfc
    exact walkNode_big matchFn patterns readContents rootDir root
      { contents := [], count := 0 } (by intro fc h; simp at h) fc hfc

/-- C9, witness: on the sample tree the bound holds and the oversized
regular file big.log is listed with an empty body. -/
theorem aiagent_C9_witness :
    (collectDirectoryContents (fun _ _ => false) ".".toList sampleTree [] true).length ≤ 500
    ∧ ({ path := "./big.log".toList, content := [], size := 200000,
         isDir := false } : FileContent).content = ([] : Str) :=
  ⟨(aiagent_C9_collection_bounds (fun _ _ => false) [] true ".".toList sampleTree).1,
   (aiagent_C9_collection_bounds (fun _ _ => false) [] true ".".toList sampleTree).2.2
     { path := "./big.log".toList, content := [], size := 200000, isDir := false }
     (by decide) (by decide) (by decide)⟩

end PkgNodes
